import Mathlib

/-!
Verification of the client-side image post-processing pipeline
(`src/lib/imageProcessor.ts` and the related upscaler modules).

The pipeline works on RGBA rasters stored as flat byte buffers; here a
raster is modelled as a width, a height, and a function from pixel index
(`p = y * width + x`) to an RGBA quadruple of natural numbers.  JavaScript
`number` arithmetic on pixel values is modelled over `ℚ` (all the constants
involved are exact decimals and the computations stay far from any binade
boundary at the inputs considered), with `Math.round` modelled as
`fun q => ⌊q + 1/2⌋` (JavaScript rounds halves towards +∞).
-/

/-- One RGBA pixel: four 8-bit channels (values stored as `Nat`). -/
structure RGBA where
  r : Nat
  g : Nat
  b : Nat
  a : Nat
deriving DecidableEq

/-- A raster: pixel `(x, y)` lives at index `y * width + x`. -/
structure Raster where
  width : Nat
  height : Nat
  data : Nat → RGBA

/-- JavaScript `Math.round`: round half towards positive infinity. -/
def jsRound (q : ℚ) : ℤ := ⌊q + 1/2⌋

/-- JavaScript `Math.max(0, Math.min(255, v))` on an integer value. -/
def clamp255 (v : ℤ) : Nat := (max 0 (min 255 v)).toNat

/-- Rec. 601 luminance `0.299*R + 0.587*G + 0.114*B`, as used by every
merge loop in `imageProcessor.ts`. -/
def lumOf (px : RGBA) : ℚ :=
  (299/1000) * px.r + (587/1000) * px.g + (114/1000) * px.b

/-- The common per-pixel fusion body of `processEsrganWithAlpha`,
`processEsrgan8x`, `processRealEsrganX4`, `processDoublePass` and
`processSeedVR` (`imageProcessor.ts`): if the original upscaled alpha is
below 10 the output pixel is fully transparent; otherwise the original
RGB is scaled by a clamped luminance adjustment computed from the external
pixel, and the output alpha is the original alpha.  The three parameters
are the per-variant blend strength and clamp bounds. -/
def mergePixelWith (blend lo hi : ℚ) (orig ext : RGBA) : RGBA :=
  if orig.a < 10 then ⟨0, 0, 0, 0⟩
  else
    let origLum := lumOf orig
    let extLum := lumOf ext
    let lumScale := if origLum > 0 then extLum / origLum else 1
    let adjusted := 1 + (lumScale - 1) * blend
    let clamped := max lo (min hi adjusted)
    ⟨clamp255 (jsRound (orig.r * clamped)),
     clamp255 (jsRound (orig.g * clamped)),
     clamp255 (jsRound (orig.b * clamped)),
     orig.a⟩

/-- The fusion merge loop applied over whole rasters of identical
dimensions (`for (let i = 0; i < data.length; i += 4)`). -/
def mergeRasters (blend lo hi : ℚ) (orig ext : Raster) : Raster :=
  { width := orig.width, height := orig.height,
    data := fun p => mergePixelWith blend lo hi (orig.data p) (ext.data p) }

/-- The merge of `processEsrganWithAlpha`: blend 0.15, clamp [0.85, 1.15]. -/
def processEsrganWithAlphaMerge (orig ext : Raster) : Raster :=
  mergeRasters (15/100) (85/100) (115/100) orig ext

/-- The merge of `processEsrgan8x`: blend 0.1, clamp [0.9, 1.1]. -/
def processEsrgan8xMerge (orig ext : Raster) : Raster :=
  mergeRasters (1/10) (9/10) (11/10) orig ext

/-- The merge of `processRealEsrganX4`: blend 0.12, clamp [0.9, 1.1]. -/
def processRealEsrganX4Merge (orig ext : Raster) : Raster :=
  mergeRasters (12/100) (9/10) (11/10) orig ext

/-- The merge of `processDoublePass`: blend 0.15, clamp [0.88, 1.12]. -/
def processDoublePassMerge (orig ext : Raster) : Raster :=
  mergeRasters (15/100) (88/100) (112/100) orig ext

/-- The merge of `processSeedVR`: blend 0.1, clamp [0.9, 1.1]. -/
def processSeedVRMerge (orig ext : Raster) : Raster :=
  mergeRasters (1/10) (9/10) (11/10) orig ext

/-- `cleanEdges` pixel body (`imageProcessor.ts`): a pixel whose alpha is
below 10 has all four channels zeroed; any other pixel is untouched. -/
def cleanEdgesPixel (px : RGBA) : RGBA :=
  if px.a < 10 then ⟨0, 0, 0, 0⟩ else px

/-- `cleanEdges` over a whole raster (in-place loop over every pixel). -/
def cleanEdges (r : Raster) : Raster :=
  { width := r.width, height := r.height,
    data := fun p => cleanEdgesPixel (r.data p) }

/-- A 1×1 original raster whose single pixel has alpha 5 (below the
transparency cutoff 10 of the merge loops). -/
def alphaFiveRaster : Raster :=
  { width := 1, height := 1, data := fun _ => ⟨200, 100, 50, 5⟩ }

/-- An arbitrary 1×1 external (ESRGAN) raster of the same dimensions. -/
def extOneRaster : Raster :=
  { width := 1, height := 1, data := fun _ => ⟨210, 110, 60, 255⟩ }

/-- Claim C1 (counterexample): fusion does modify alpha.  For a pixel whose
original upscaled alpha is 5, `processEsrganWithAlpha`'s merge writes
alpha 0, which is not byte-identical to the original alpha. -/
theorem fusion_alpha_modified_below_ten :
    ((processEsrganWithAlphaMerge alphaFiveRaster extOneRaster).data 0).a ≠
      (alphaFiveRaster.data 0).a := by
  decide

/-- Claim C1 (amended): for every blend strength, clamp range, input pair
and pixel position, the fusion output alpha equals the original upscaled
alpha whenever that alpha is at least 10, and is 0 (fully transparent)
whenever the original alpha is below 10.  Fusion never modifies alpha
except to zero near-transparent pixels. -/
theorem fusion_alpha_semantics (blend lo hi : ℚ) (orig ext : Raster) (p : Nat) :
    ((mergeRasters blend lo hi orig ext).data p).a =
      (if (orig.data p).a < 10 then 0 else (orig.data p).a) := by
  unfold mergeRasters mergePixelWith
  by_cases h : (orig.data p).a < 10 <;> simp [h]

/-- Claim C10: `cleanEdges` is idempotent, because one pass zeroes every
channel of each pixel with alpha below 10 and leaves every pixel with
alpha at least 10 untouched. -/
theorem cleanEdges_idempotent (r : Raster) :
    cleanEdges (cleanEdges r) = cleanEdges r ∧
      (∀ p, ((r.data p).a < 10 → (cleanEdges r).data p = ⟨0, 0, 0, 0⟩) ∧
        (10 ≤ (r.data p).a → (cleanEdges r).data p = r.data p)) := by
  refine ⟨?_, fun p => ⟨fun h => ?_, fun h => ?_⟩⟩
  · show Raster.mk _ _ _ = Raster.mk _ _ _
    refine congrArg (Raster.mk r.width r.height) (funext fun p => ?_)
    show cleanEdgesPixel (cleanEdgesPixel (r.data p)) = cleanEdgesPixel (r.data p)
    unfold cleanEdgesPixel
    by_cases h : (r.data p).a < 10 <;> simp [h]
  · show cleanEdgesPixel (r.data p) = _
    unfold cleanEdgesPixel
    simp [h]
  · show cleanEdgesPixel (r.data p) = _
    unfold cleanEdgesPixel
    simp [Nat.not_lt.mpr h]

/-- Witness for claim C10 at a concrete raster: the single pixel of
`alphaFiveRaster` has alpha 5 < 10, so one `cleanEdges` pass zeroes it and
a second pass changes nothing. -/
theorem cleanEdges_idempotent_witness :
    (cleanEdges alphaFiveRaster).data 0 = ⟨0, 0, 0, 0⟩ ∧
      cleanEdges (cleanEdges alphaFiveRaster) = cleanEdges alphaFiveRaster :=
  ⟨((cleanEdges_idempotent alphaFiveRaster).2 0).1 (by decide),
   (cleanEdges_idempotent alphaFiveRaster).1⟩

/-- `maxScale = Math.max(targetW / srcW, targetH / srcH)` computed at the
top of `multiStepUpscale` (`imageProcessor.ts`). -/
def msuMaxScale (srcW srcH targetW targetH : Nat) : ℚ :=
  max ((targetW : ℚ) / srcW) ((targetH : ℚ) / srcH)

/-- `numSteps = Math.ceil(Math.log2(maxScale))` of `multiStepUpscale`.
For a rational `q > 1`, `⌈log2 q⌉` is the least `n` with `q ≤ 2 ^ n`;
since `2 ^ n` is an integer that is equivalent to `⌈q⌉₊ ≤ 2 ^ n`, so the
value equals `Nat.clog 2 ⌈q⌉₊` (the characterization is proved with the
step-count theorem below). -/
def msuNumSteps (srcW srcH targetW targetH : Nat) : Nat :=
  Nat.clog 2 ⌈msuMaxScale srcW srcH targetW targetH⌉₊

/-- The intermediate-canvas loop of `multiStepUpscale`: starting from the
current dimensions, run `fuel` iterations of
`next = (min (current*2) target)` per axis, returning the list of
intermediate canvas dimensions in order. -/
def msuLoop (targetW targetH : Nat) : Nat → Nat × Nat → List (Nat × Nat)
  | 0, _ => []
  | fuel + 1, cur =>
    let next := (min (cur.1 * 2) targetW, min (cur.2 * 2) targetH)
    next :: msuLoop targetW targetH fuel next

/-- The sequence of canvas dimensions produced by `multiStepUpscale`:
a single pass when `maxScale ≤ 2`, otherwise `numSteps − 1` intermediate
doublings followed by the final resample to the exact target. -/
def multiStepUpscaleTrace (srcW srcH targetW targetH : Nat) : List (Nat × Nat) :=
  if msuMaxScale srcW srcH targetW targetH ≤ 2 then [(targetW, targetH)]
  else
    msuLoop targetW targetH (msuNumSteps srcW srcH targetW targetH - 1) (srcW, srcH)
      ++ [(targetW, targetH)]

/-- The dimensions of the canvas `multiStepUpscale` returns: the last
entry of its trace. -/
def multiStepUpscaleDims (srcW srcH targetW targetH : Nat) : Nat × Nat :=
  (multiStepUpscaleTrace srcW srcH targetW targetH).getLastD (0, 0)

theorem msuLoop_length (targetW targetH : Nat) :
    ∀ fuel cur, (msuLoop targetW targetH fuel cur).length = fuel := by
  intro fuel
  induction fuel with
  | zero => intro cur; rfl
  | succ n ih => intro cur; simp [msuLoop, ih]

/-- Claim C2: for every positive source rectangle and positive target
dimensions, `multiStepUpscale` returns a canvas of exactly the requested
`targetW × targetH`, whatever the scale factor (both the single-pass
branch and the multi-step branch end on a canvas of the target size). -/
theorem multiStepUpscale_dims (srcW srcH targetW targetH : Nat)
    (hsw : 0 < srcW) (hsh : 0 < srcH) (htw : 0 < targetW) (hth : 0 < targetH) :
    multiStepUpscaleDims srcW srcH targetW targetH = (targetW, targetH) := by
  unfold multiStepUpscaleDims multiStepUpscaleTrace
  by_cases h : msuMaxScale srcW srcH targetW targetH ≤ 2
  · simp [h]
  · simp [h, List.getLastD_concat]

/-- Witness for claim C2: a 100×150 source rectangle upscaled to 1700×1200
(scale factor 17 in x, above 8) comes back with dimensions 1700×1200. -/
theorem multiStepUpscale_dims_witness :
    multiStepUpscaleDims 100 150 1700 1200 = (1700, 1200) :=
  multiStepUpscale_dims 100 150 1700 1200 (by decide) (by decide) (by decide)
    (by decide)

/-- Claim C3: when `maxScale > 2`, the number of resampling steps of
`multiStepUpscale` is `numSteps = ⌈log2 maxScale⌉` (characterized as the
least power of two at or above `maxScale`), realized as `numSteps − 1`
intermediate doublings (each axis `min (current × 2) target`) followed by
one final resample to the exact target; in particular `maxScale = 8`
gives exactly 3 steps: 2 intermediate canvases plus the final resample. -/
theorem multiStepUpscale_step_count (srcW srcH targetW targetH : Nat)
    (hsw : 0 < srcW) (hsh : 0 < srcH)
    (h2 : 2 < msuMaxScale srcW srcH targetW targetH) :
    (msuMaxScale srcW srcH targetW targetH ≤
        2 ^ msuNumSteps srcW srcH targetW targetH ∧
      (2 : ℚ) ^ (msuNumSteps srcW srcH targetW targetH - 1) <
        msuMaxScale srcW srcH targetW targetH) ∧
    multiStepUpscaleTrace srcW srcH targetW targetH =
      msuLoop targetW targetH (msuNumSteps srcW srcH targetW targetH - 1)
        (srcW, srcH) ++ [(targetW, targetH)] ∧
    (multiStepUpscaleTrace srcW srcH targetW targetH).length =
      msuNumSteps srcW srcH targetW targetH ∧
    (targetW = 8 * srcW → targetH = 8 * srcH →
      msuNumSteps srcW srcH targetW targetH = 3 ∧
        multiStepUpscaleTrace srcW srcH targetW targetH =
          [(2 * srcW, 2 * srcH), (4 * srcW, 4 * srcH), (8 * srcW, 8 * srcH)]) := by
  have hq0 : (0 : ℚ) < msuMaxScale srcW srcH targetW targetH := lt_trans (by norm_num) h2
  have hceil : 2 < ⌈msuMaxScale srcW srcH targetW targetH⌉₊ := Nat.lt_ceil.mpr h2
  have hn1 : 1 ≤ msuNumSteps srcW srcH targetW targetH := by
    have hpos : 0 < Nat.clog 2 ⌈msuMaxScale srcW srcH targetW targetH⌉₊ :=
      Nat.clog_pos (by norm_num) (by omega)
    unfold msuNumSteps
    omega
  have hnot : ¬ msuMaxScale srcW srcH targetW targetH ≤ 2 := not_le.mpr h2
  have hupper : msuMaxScale srcW srcH targetW targetH ≤
      2 ^ msuNumSteps srcW srcH targetW targetH := by
    calc msuMaxScale srcW srcH targetW targetH
        ≤ (⌈msuMaxScale srcW srcH targetW targetH⌉₊ : ℚ) := Nat.le_ceil _
      _ ≤ ((2 ^ msuNumSteps srcW srcH targetW targetH : ℕ) : ℚ) := by
          exact_mod_cast Nat.le_pow_clog (by norm_num) _
      _ = 2 ^ msuNumSteps srcW srcH targetW targetH := by push_cast; ring
  have hlower : (2 : ℚ) ^ (msuNumSteps srcW srcH targetW targetH - 1) <
      msuMaxScale srcW srcH targetW targetH := by
    have hlt : 2 ^ (msuNumSteps srcW srcH targetW targetH - 1) <
        ⌈msuMaxScale srcW srcH targetW targetH⌉₊ :=
      Nat.pow_pred_clog_lt_self (by norm_num) (by omega)
    have hc1 : (⌈msuMaxScale srcW srcH targetW targetH⌉₊ : ℚ) <
        msuMaxScale srcW srcH targetW targetH + 1 :=
      Nat.ceil_lt_add_one (le_of_lt hq0)
    have : ((2 ^ (msuNumSteps srcW srcH targetW targetH - 1) : ℕ) : ℚ) + 1 ≤
        (⌈msuMaxScale srcW srcH targetW targetH⌉₊ : ℚ) := by exact_mod_cast hlt
    have h2c : ((2 ^ (msuNumSteps srcW srcH targetW targetH - 1) : ℕ) : ℚ) =
        (2 : ℚ) ^ (msuNumSteps srcW srcH targetW targetH - 1) := by push_cast; ring
    linarith [h2c ▸ this]
  refine ⟨⟨hupper, hlower⟩, ?_, ?_, ?_⟩
  · unfold multiStepUpscaleTrace
    simp [hnot]
  · unfold multiStepUpscaleTrace
    simp [hnot, msuLoop_length]
    omega
  · intro hw8 hh8
    have hsc : msuMaxScale srcW srcH targetW targetH = 8 := by
      subst hw8 hh8
      unfold msuMaxScale
      have e1 : ((8 * srcW : ℕ) : ℚ) / (srcW : ℚ) = 8 := by
        push_cast
        field_simp
      have e2 : ((8 * srcH : ℕ) : ℚ) / (srcH : ℚ) = 8 := by
        push_cast
        field_simp
      rw [e1, e2]
      simp
    have hns : msuNumSteps srcW srcH targetW targetH = 3 := by
      unfold msuNumSteps
      rw [hsc, show ⌈(8 : ℚ)⌉₊ = 8 by norm_num,
        show (8 : ℕ) = 2 ^ 3 from rfl, Nat.clog_pow]
      norm_num
    refine ⟨hns, ?_⟩
    unfold multiStepUpscaleTrace
    rw [if_neg hnot, hns, hw8, hh8]
    have m1 : min (srcW * 2) (8 * srcW) = 2 * srcW := by omega
    have m2 : min (srcH * 2) (8 * srcH) = 2 * srcH := by omega
    have m3 : min (2 * srcW * 2) (8 * srcW) = 4 * srcW := by omega
    have m4 : min (2 * srcH * 2) (8 * srcH) = 4 * srcH := by omega
    simp only [show (3 - 1 : Nat) = 2 from rfl, msuLoop, m1, m2, m3, m4]
    simp

/-- Witness for claim C3: a 100×150 source rectangle scaled 8× in each
axis to 800×1200 takes 3 steps, with intermediate canvases 200×300 and
400×600 and a final resample to 800×1200. -/
theorem multiStepUpscale_step_count_witness :
    msuNumSteps 100 150 800 1200 = 3 ∧
      multiStepUpscaleTrace 100 150 800 1200 =
        [(200, 300), (400, 600), (800, 1200)] := by
  have h2 : (2 : ℚ) < msuMaxScale 100 150 800 1200 := by
    unfold msuMaxScale
    norm_num
  exact (multiStepUpscale_step_count 100 150 800 1200 (by norm_num) (by norm_num)
    h2).2.2.2 rfl rfl

/-- The fixed output canvas width (`TARGET_WIDTH` in the source). -/
def TARGET_WIDTH : Nat := 4500

/-- The fixed output canvas height (`TARGET_HEIGHT` in the source). -/
def TARGET_HEIGHT : Nat := 5400

/-- `offsetX = Math.round((TARGET_WIDTH - contentCanvas.width) / 2)` from
`centerOnFinalCanvas` (`imageProcessor.ts`). -/
def centerOffsetX (c : Raster) : ℤ :=
  jsRound ((TARGET_WIDTH - (c.width : ℚ)) / 2)

/-- `offsetY = Math.round((TARGET_HEIGHT - contentCanvas.height) / 2)`. -/
def centerOffsetY (c : Raster) : ℤ :=
  jsRound ((TARGET_HEIGHT - (c.height : ℚ)) / 2)

/-- `centerOnFinalCanvas` (`imageProcessor.ts`): allocate a cleared
4500×5400 canvas and `drawImage` the content at the centering offsets.
Drawing onto a fully transparent cleared canvas with source-over
compositing copies the source pixels unchanged, so the model reads the
content pixel when the position falls inside the offset content
rectangle and yields the all-zero (fully transparent) pixel elsewhere. -/
def centerOnFinalCanvas (c : Raster) : Raster :=
  { width := TARGET_WIDTH, height := TARGET_HEIGHT,
    data := fun p =>
      let x : ℤ := (p % TARGET_WIDTH : Nat)
      let y : ℤ := (p / TARGET_WIDTH : Nat)
      if centerOffsetX c ≤ x ∧ x < centerOffsetX c + c.width ∧
          centerOffsetY c ≤ y ∧ y < centerOffsetY c + c.height then
        c.data ((y - centerOffsetY c).toNat * c.width + (x - centerOffsetX c).toNat)
      else ⟨0, 0, 0, 0⟩ }

theorem centerOffsetX_nonneg (c : Raster) (hcw : c.width ≤ 4500) :
    0 ≤ centerOffsetX c := by
  unfold centerOffsetX jsRound TARGET_WIDTH
  refine Int.le_floor.mpr ?_
  push_cast
  have : (c.width : ℚ) ≤ 4500 := by exact_mod_cast hcw
  linarith

theorem centerOffsetX_add_width_le (c : Raster) (hcw : c.width ≤ 4500) :
    centerOffsetX c + c.width ≤ 4500 := by
  have hfl : (centerOffsetX c : ℚ) ≤ (4500 - (c.width : ℚ)) / 2 + 1/2 := by
    unfold centerOffsetX jsRound TARGET_WIDTH
    exact_mod_cast Int.floor_le _
  have hq : ((centerOffsetX c + c.width : ℤ) : ℚ) < 4501 := by
    push_cast
    have : (c.width : ℚ) ≤ 4500 := by exact_mod_cast hcw
    linarith
  have : centerOffsetX c + c.width < 4501 := by exact_mod_cast hq
  omega

theorem centerOffsetY_nonneg (c : Raster) (hch : c.height ≤ 5400) :
    0 ≤ centerOffsetY c := by
  unfold centerOffsetY jsRound TARGET_HEIGHT
  refine Int.le_floor.mpr ?_
  push_cast
  have : (c.height : ℚ) ≤ 5400 := by exact_mod_cast hch
  linarith

theorem centerOffsetY_add_height_le (c : Raster) (hch : c.height ≤ 5400) :
    centerOffsetY c + c.height ≤ 5400 := by
  have hfl : (centerOffsetY c : ℚ) ≤ (5400 - (c.height : ℚ)) / 2 + 1/2 := by
    unfold centerOffsetY jsRound TARGET_HEIGHT
    exact_mod_cast Int.floor_le _
  have hq : ((centerOffsetY c + c.height : ℤ) : ℚ) < 5401 := by
    push_cast
    have : (c.height : ℚ) ≤ 5400 := by exact_mod_cast hch
    linarith
  have : centerOffsetY c + c.height < 5401 := by exact_mod_cast hq
  omega

/-- Claim C6: for content no larger than the canvas,
`centerOnFinalCanvas` returns a raster of exactly 4500×5400, the content
is copied unchanged to the region at `offsetX = round((4500 − w)/2)`,
`offsetY = round((5400 − h)/2)`, and every pixel outside that centered
region is fully transparent (alpha 0). -/
theorem centerOnFinalCanvas_spec (c : Raster)
    (hcw : c.width ≤ 4500) (hch : c.height ≤ 5400) :
    (centerOnFinalCanvas c).width = 4500 ∧
    (centerOnFinalCanvas c).height = 5400 ∧
    (∀ x y, x < c.width → y < c.height →
      (centerOnFinalCanvas c).data
          ((y + (centerOffsetY c).toNat) * 4500 + (x + (centerOffsetX c).toNat)) =
        c.data (y * c.width + x)) ∧
    (∀ x y, x < 4500 → y < 5400 →
      (x < (centerOffsetX c).toNat ∨ (centerOffsetX c).toNat + c.width ≤ x ∨
        y < (centerOffsetY c).toNat ∨ (centerOffsetY c).toNat + c.height ≤ y) →
      ((centerOnFinalCanvas c).data (y * 4500 + x)).a = 0) := by
  have hx0 := centerOffsetX_nonneg c hcw
  have hx1 := centerOffsetX_add_width_le c hcw
  have hy0 := centerOffsetY_nonneg c hch
  have hy1 := centerOffsetY_add_height_le c hch
  have hoX : ((centerOffsetX c).toNat : ℤ) = centerOffsetX c := Int.toNat_of_nonneg hx0
  have hoY : ((centerOffsetY c).toNat : ℤ) = centerOffsetY c := Int.toNat_of_nonneg hy0
  refine ⟨rfl, rfl, ?_, ?_⟩
  · intro x y hx hy
    have hxlt : x + (centerOffsetX c).toNat < 4500 := by omega
    have hylt : y + (centerOffsetY c).toNat < 5400 := by omega
    have hmod : ((y + (centerOffsetY c).toNat) * 4500 + (x + (centerOffsetX c).toNat))
        % 4500 = x + (centerOffsetX c).toNat := by omega
    have hdiv : ((y + (centerOffsetY c).toNat) * 4500 + (x + (centerOffsetX c).toNat))
        / 4500 = y + (centerOffsetY c).toNat := by omega
    simp only [centerOnFinalCanvas, TARGET_WIDTH, TARGET_HEIGHT]
    rw [hmod, hdiv, if_pos]
    · have e1 : (((x + (centerOffsetX c).toNat : ℕ) : ℤ) - centerOffsetX c).toNat
          = x := by omega
      have e2 : (((y + (centerOffsetY c).toNat : ℕ) : ℤ) - centerOffsetY c).toNat
          = y := by omega
      rw [e1, e2]
    · refine ⟨by omega, by omega, by omega, by omega⟩
  · intro x y hx hy hout
    have hmod : (y * 4500 + x) % 4500 = x := by omega
    have hdiv : (y * 4500 + x) / 4500 = y := by omega
    simp only [centerOnFinalCanvas, TARGET_WIDTH, TARGET_HEIGHT]
    rw [hmod, hdiv, if_neg]
    rintro ⟨h1, h2, h3, h4⟩
    rcases hout with h | h | h | h <;> omega

/-- A concrete 2×2 content raster used as a witness input. -/
def contentTwoRaster : Raster :=
  { width := 2, height := 2, data := fun _ => ⟨10, 20, 30, 40⟩ }

/-- Witness for claim C6: centering the 2×2 content raster yields a
4500×5400 canvas. -/
theorem centerOnFinalCanvas_spec_witness :
    (centerOnFinalCanvas contentTwoRaster).width = 4500 ∧
      (centerOnFinalCanvas contentTwoRaster).height = 5400 :=
  ⟨(centerOnFinalCanvas_spec contentTwoRaster (by decide) (by decide)).1,
   (centerOnFinalCanvas_spec contentTwoRaster (by decide) (by decide)).2.1⟩

/-- An inclusive content bounding box, as returned by `findContentBounds`. -/
structure Bounds where
  left : Nat
  top : Nat
  right : Nat
  bottom : Nat
deriving DecidableEq

/-- The alpha byte at `(x, y)`: `data[(y * width + x) * 4 + 3]`. -/
def alphaAt (r : Raster) (x y : Nat) : Nat :=
  (r.data (y * r.width + x)).a

/-- One inner-loop body of `findContentBounds` (`imageProcessor.ts`,
threshold `alpha > 15`): widen the tracked min/max coordinates when the
pixel qualifies as content. -/
def fcbStep (r : Raster) (b : Bounds) (x y : Nat) : Bounds :=
  if alphaAt r x y > 15 then
    { left := if x < b.left then x else b.left,
      top := if y < b.top then y else b.top,
      right := if x > b.right then x else b.right,
      bottom := if y > b.bottom then y else b.bottom }
  else b

/-- The double scan loop of `findContentBounds`, starting from the
sentinel state `left = width, top = height, right = 0, bottom = 0`. -/
def fcbScan (r : Raster) : Bounds :=
  (List.range r.height).foldl
    (fun b y => (List.range r.width).foldl (fun b x => fcbStep r b x y) b)
    { left := r.width, top := r.height, right := 0, bottom := 0 }

/-- `findContentBounds` (`imageProcessor.ts`): scan every pixel for
alpha above 15; if the scan finds nothing (degenerate sentinel state),
fall back to full-frame bounds. -/
def findContentBounds (r : Raster) : Bounds :=
  let s := fcbScan r
  if s.left > s.right ∨ s.top > s.bottom then
    { left := 0, top := 0, right := r.width - 1, bottom := r.height - 1 }
  else s

/-- `padding = Math.round(Math.max(naturalWidth, naturalHeight) * 0.025)`
from `calculateCropAndTarget` (`imageProcessor.ts`). -/
def calcPadding (w h : Nat) : Nat :=
  (jsRound ((max w h : ℚ) * (25/1000))).toNat

/-- The record returned by `calculateCropAndTarget`. -/
structure GeometryPlan where
  cropLeft : Nat
  cropTop : Nat
  contentWidth : Nat
  contentHeight : Nat
  scaledW : Nat
  scaledH : Nat
deriving DecidableEq

/-- The geometry computation of `calculateCropAndTarget`
(`imageProcessor.ts`) for a raster of dimensions `w × h` with detected
content `bounds`: pad the bounds by `calcPadding` clamped to the raster
edges (`Nat` subtraction models `Math.max(0, ·)`), then aspect-fit the
padded content into the 85%-of-canvas box `3825 × 4590` and round. -/
def calculateCropAndTargetFromBounds (w h : Nat) (bounds : Bounds) : GeometryPlan :=
  let padding := calcPadding w h
  let cropLeft := bounds.left - padding
  let cropTop := bounds.top - padding
  let cropRight := min (w - 1) (bounds.right + padding)
  let cropBottom := min (h - 1) (bounds.bottom + padding)
  let contentWidth := cropRight - cropLeft + 1
  let contentHeight := cropBottom - cropTop + 1
  let maxContentWidth : ℚ := TARGET_WIDTH * (85/100)
  let maxContentHeight : ℚ := TARGET_HEIGHT * (85/100)
  let contentAspect : ℚ := (contentWidth : ℚ) / contentHeight
  let targetAspect : ℚ := maxContentWidth / maxContentHeight
  let finalContentWidth : ℚ :=
    if contentAspect > targetAspect then maxContentWidth
    else maxContentHeight * contentAspect
  let finalContentHeight : ℚ :=
    if contentAspect > targetAspect then maxContentWidth / contentAspect
    else maxContentHeight
  { cropLeft := cropLeft, cropTop := cropTop,
    contentWidth := contentWidth, contentHeight := contentHeight,
    scaledW := (jsRound finalContentWidth).toNat,
    scaledH := (jsRound finalContentHeight).toNat }

/-- `calculateCropAndTarget` itself: detect the content bounds, then run
the geometry computation. -/
def calculateCropAndTarget (r : Raster) : GeometryPlan :=
  calculateCropAndTargetFromBounds r.width r.height (findContentBounds r)

theorem calcPadding_eval : calcPadding 1024 1536 = 38 := by
  unfold calcPadding jsRound
  rw [show ((1024:ℕ):ℚ) ⊔ ((1536:ℕ):ℚ) = 1536 by norm_num]
  rw [show (1536:ℚ) * (25/1000) + 1/2 = 389/10 by norm_num]
  rw [show ⌊(389/10 : ℚ)⌋ = 38 by norm_num]
  rfl

/-- Claim C7 (counterexample): for a 1024×1536 source the crop padding
computed by `calculateCropAndTarget` is `round(1536 × 0.025) = 38`, not
`round(1536 × 0.02) = 31` as the claim states. -/
theorem calcPadding_not_31 : calcPadding 1024 1536 = 38 ∧ calcPadding 1024 1536 ≠ 31 := by
  rw [calcPadding_eval]
  exact ⟨rfl, by decide⟩

/-- Claim C7 (amended): for a 1024×1536 source with content bounds
[100,100]-[900,1400], the padding fraction of the code is 0.025, so the
padding is `round(1536 × 0.025) = 38`; the padded crop is then
cropLeft = cropTop = 62, content 877×1377, and the aspect-fit formula
(content is taller than the 3825×4590 box, so the height 4590 is the
limiting dimension) gives `scaledW = round(4590 × 877/1377) = 2923` and
`scaledH = 4590`. -/
theorem calculateCropAndTarget_scenario :
    calculateCropAndTargetFromBounds 1024 1536 ⟨100, 100, 900, 1400⟩ =
      ⟨62, 62, 877, 1377, 2923, 4590⟩ := by
  unfold calculateCropAndTargetFromBounds
  rw [calcPadding_eval]
  simp only [TARGET_WIDTH, TARGET_HEIGHT]
  norm_num
  constructor
  · unfold jsRound
    rw [show (8770/3 : ℚ) + 1/2 = 17543/6 by norm_num]
    rw [show ⌊(17543/6 : ℚ)⌋ = 2923 by norm_num]
    rfl
  · unfold jsRound
    rw [show (4590:ℚ) + 1/2 = 9181/2 by norm_num]
    rw [show ⌊(9181/2 : ℚ)⌋ = 4590 by norm_num]
    rfl

/-- One RGB channel of the unsharp-mask convolution of
`applySharpeningFilter` (`imageProcessor.ts`): centre weight
`1 + 4*strength`, four-neighbour weight `-strength`, rounded and clamped
to [0, 255]. -/
def sharpChannel (strength : ℚ) (ctr up dn lf rg : Nat) : Nat :=
  clamp255 (jsRound ((ctr : ℚ) * (1 + 4 * strength) +
    (up : ℚ) * (-strength) + (dn : ℚ) * (-strength) +
    (lf : ℚ) * (-strength) + (rg : ℚ) * (-strength)))

/-- `applySharpeningFilter` (`imageProcessor.ts`): the output buffer
starts as a copy of the input; interior pixels (at least one pixel away
from every border) whose alpha is at least 25 get the convolved RGB and
their original alpha; every other pixel keeps its original bytes. -/
def applySharpeningFilter (r : Raster) (strength : ℚ) : Raster :=
  { width := r.width, height := r.height,
    data := fun p =>
      let x := p % r.width
      let y := p / r.width
      let px := r.data p
      if 1 ≤ x ∧ x + 1 < r.width ∧ 1 ≤ y ∧ y + 1 < r.height ∧ ¬ px.a < 25 then
        let up := r.data ((y - 1) * r.width + x)
        let dn := r.data ((y + 1) * r.width + x)
        let lf := r.data (y * r.width + (x - 1))
        let rg := r.data (y * r.width + (x + 1))
        ⟨sharpChannel strength px.r up.r dn.r lf.r rg.r,
         sharpChannel strength px.g up.g dn.g lf.g rg.g,
         sharpChannel strength px.b up.b dn.b lf.b rg.b,
         px.a⟩
      else px }

/-- Claim C8: sharpening a fully transparent image (every pixel has
alpha 0) returns a buffer byte-identical to the input, for any strength:
alpha 0 is below the skip threshold 25, so every pixel is skipped. -/
theorem sharpen_transparent_identity (r : Raster) (strength : ℚ)
    (h : ∀ p, p < r.width * r.height → (r.data p).a = 0) :
    ∀ p, p < r.width * r.height →
      (applySharpeningFilter r strength).data p = r.data p := by
  intro p hp
  show (if _ then _ else _) = r.data p
  rw [if_neg]
  rintro ⟨-, -, -, -, hskip⟩
  exact hskip (by rw [h p hp]; norm_num)

/-- A fully transparent 3×3 raster. -/
def transparentThree : Raster :=
  { width := 3, height := 3, data := fun _ => ⟨7, 8, 9, 0⟩ }

/-- Witness for claim C8: sharpening the transparent 3×3 raster leaves
its centre pixel (the only interior pixel) unchanged. -/
theorem sharpen_transparent_identity_witness :
    (applySharpeningFilter transparentThree (3/2)).data 4 = transparentThree.data 4 :=
  sharpen_transparent_identity transparentThree (3/2) (fun _ _ => rfl) 4 (by decide)

/-- The aspect-fit computation of `upscaleImage` (the 1.4×-increment
variant): fit `contentWidth × contentHeight` into the 85%-of-canvas box
3825 × 4590 preserving aspect ratio, returning the exact (unrounded)
`(finalContentWidth, finalContentHeight)`. -/
def upscaleImageFinalSize (contentWidth contentHeight : Nat) : ℚ × ℚ :=
  let maxContentWidth : ℚ := TARGET_WIDTH * (85/100)
  let maxContentHeight : ℚ := TARGET_HEIGHT * (85/100)
  let contentAspect : ℚ := (contentWidth : ℚ) / contentHeight
  let targetAspect : ℚ := maxContentWidth / maxContentHeight
  if contentAspect > targetAspect then
    (maxContentWidth, maxContentWidth / contentAspect)
  else (maxContentHeight * contentAspect, maxContentHeight)

/-- One iteration of the staged-upscaling while-loop of `upscaleImage`
(the 1.4×-increment variant): `step = min(1.4, max(scaleX, scaleY))`,
`targetW = min(round(finalW), round(currentW * step))` and likewise for
the height. -/
def upscaleImageStep (finalW finalH : ℚ) (cur : Nat × Nat) : Nat × Nat :=
  let scaleX := finalW / (cur.1 : ℚ)
  let scaleY := finalH / (cur.2 : ℚ)
  let step := min (7/5) (max scaleX scaleY)
  ((min (jsRound finalW) (jsRound ((cur.1 : ℚ) * step))).toNat,
   (min (jsRound finalH) (jsRound ((cur.2 : ℚ) * step))).toNat)

/-- The staged-upscaling while-loop of `upscaleImage`, with explicit
fuel: `none` means the fuel ran out with the loop guard
`currentW < finalW * 0.98 || currentH < finalH * 0.98` still true. -/
def upscaleImageLoop (finalW finalH : ℚ) : Nat → Nat × Nat → Option (Nat × Nat)
  | 0, cur =>
    if (cur.1 : ℚ) < finalW * (98/100) ∨ (cur.2 : ℚ) < finalH * (98/100) then none
    else some cur
  | fuel + 1, cur =>
    if (cur.1 : ℚ) < finalW * (98/100) ∨ (cur.2 : ℚ) < finalH * (98/100) then
      upscaleImageLoop finalW finalH fuel (upscaleImageStep finalW finalH cur)
    else some cur

theorem upscaleImageStep_one_fixed : upscaleImageStep 3825 3825 (1, 1) = (1, 1) := by
  unfold upscaleImageStep jsRound
  norm_num

/-- Claim C9: the staged-upscaling while-loop of `upscaleImage` does NOT
terminate on every accepted input.  For a 1×1 content crop (e.g. a 1×1
source image) the aspect-fit target is 3825 × 3825, the loop guard
`1 < 3825 * 0.98` holds, and the loop body maps `(1, 1)` to `(1, 1)`
(because `round(1 * 1.4) = 1`), so no dimension ever increases and the
loop runs forever: with any amount of fuel it never exits. -/
theorem upscaleImage_loop_diverges_on_one :
    upscaleImageFinalSize 1 1 = (3825, 3825) ∧
    upscaleImageStep 3825 3825 (1, 1) = (1, 1) ∧
    ∀ fuel, upscaleImageLoop 3825 3825 fuel (1, 1) = none := by
  have hguard : ((1 : ℕ) : ℚ) < 3825 * (98/100) ∨ ((1 : ℕ) : ℚ) < 3825 * (98/100) :=
    Or.inl (by norm_num)
  refine ⟨?_, upscaleImageStep_one_fixed, ?_⟩
  · unfold upscaleImageFinalSize
    simp only [TARGET_WIDTH, TARGET_HEIGHT]
    norm_num
  · intro fuel
    induction fuel with
    | zero =>
      unfold upscaleImageLoop
      rw [if_pos hguard]
    | succ n ih =>
      unfold upscaleImageLoop
      rw [if_pos hguard, upscaleImageStep_one_fixed]
      exact ih

/-- The row-major list of all pixel coordinates scanned by
`findContentBounds`'s nested loops. -/
def pixList (r : Raster) : List (Nat × Nat) :=
  (List.range r.height).bind (fun y => (List.range r.width).map fun x => (x, y))

/-- Folding `fcbStep` over an arbitrary coordinate list. -/
def fcbFold (r : Raster) (L : List (Nat × Nat)) (b : Bounds) : Bounds :=
  L.foldl (fun b p => fcbStep r b p.1 p.2) b

theorem foldl_bind_eq {α β γ : Type} (l : List α) (f : α → List β) (g : γ → β → γ)
    (i : γ) : ((l.bind f).foldl g i) = l.foldl (fun acc a => (f a).foldl g acc) i := by
  induction l generalizing i with
  | nil => rfl
  | cons a t ih => simp [List.cons_bind, List.foldl_append, ih]

theorem fcbScan_eq_foldl (r : Raster) :
    fcbScan r = fcbFold r (pixList r) ⟨r.width, r.height, 0, 0⟩ := by
  unfold fcbScan fcbFold pixList
  rw [foldl_bind_eq]
  congr 1
  funext b y
  rw [List.foldl_map]

theorem mem_pixList (r : Raster) (p : Nat × Nat) :
    p ∈ pixList r ↔ p.1 < r.width ∧ p.2 < r.height := by
  obtain ⟨x, y⟩ := p
  simp only [pixList, List.mem_bind, List.mem_map, List.mem_range, Prod.mk.injEq]
  constructor
  · rintro ⟨y', hy', x', hx', rfl, rfl⟩
    exact ⟨hx', hy'⟩
  · rintro ⟨hx, hy⟩
    exact ⟨y, hy, x, hx, rfl, rfl⟩

theorem fcbStep_mono (r : Raster) (b : Bounds) (x y : Nat) :
    (fcbStep r b x y).left ≤ b.left ∧ b.right ≤ (fcbStep r b x y).right ∧
      (fcbStep r b x y).top ≤ b.top ∧ b.bottom ≤ (fcbStep r b x y).bottom := by
  unfold fcbStep
  split_ifs <;> (refine ⟨?_, ?_, ?_, ?_⟩ <;> dsimp only <;> omega)

theorem fcbFold_mono (r : Raster) (L : List (Nat × Nat)) :
    ∀ b, (fcbFold r L b).left ≤ b.left ∧ b.right ≤ (fcbFold r L b).right ∧
      (fcbFold r L b).top ≤ b.top ∧ b.bottom ≤ (fcbFold r L b).bottom := by
  induction L with
  | nil => exact fun b => ⟨le_refl _, le_refl _, le_refl _, le_refl _⟩
  | cons p t ih =>
    intro b
    have h1 := fcbStep_mono r b p.1 p.2
    have h2 := ih (fcbStep r b p.1 p.2)
    exact ⟨le_trans h2.1 h1.1, le_trans h1.2.1 h2.2.1,
      le_trans h2.2.2.1 h1.2.2.1, le_trans h1.2.2.2 h2.2.2.2⟩

theorem fcbStep_content_le (r : Raster) (b : Bounds) (x y : Nat)
    (hc : 15 < alphaAt r x y) :
    (fcbStep r b x y).left ≤ x ∧ x ≤ (fcbStep r b x y).right ∧
      (fcbStep r b x y).top ≤ y ∧ y ≤ (fcbStep r b x y).bottom := by
  unfold fcbStep
  rw [if_pos hc]
  refine ⟨?_, ?_, ?_, ?_⟩ <;> (dsimp only; split_ifs <;> omega)

theorem fcbFold_cover (r : Raster) (L : List (Nat × Nat)) :
    ∀ b, ∀ p ∈ L, 15 < alphaAt r p.1 p.2 →
      (fcbFold r L b).left ≤ p.1 ∧ p.1 ≤ (fcbFold r L b).right ∧
        (fcbFold r L b).top ≤ p.2 ∧ p.2 ≤ (fcbFold r L b).bottom := by
  induction L with
  | nil => intro b p hp; exact absurd hp (List.not_mem_nil p)
  | cons q t ih =>
    intro b p hp hc
    rcases List.mem_cons.mp hp with rfl | hpt
    · have h1 := fcbStep_content_le r b p.1 p.2 hc
      have h2 := fcbFold_mono r t (fcbStep r b p.1 p.2)
      exact ⟨le_trans h2.1 h1.1, le_trans h1.2.1 h2.2.1,
        le_trans h2.2.2.1 h1.2.2.1, le_trans h1.2.2.2 h2.2.2.2⟩
    · exact ih (fcbStep r b q.1 q.2) p hpt hc

theorem fcbStep_field_cases (r : Raster) (b : Bounds) (x y : Nat) :
    ((fcbStep r b x y).left = b.left ∨
      (15 < alphaAt r x y ∧ (fcbStep r b x y).left = x)) ∧
    ((fcbStep r b x y).right = b.right ∨
      (15 < alphaAt r x y ∧ (fcbStep r b x y).right = x)) ∧
    ((fcbStep r b x y).top = b.top ∨
      (15 < alphaAt r x y ∧ (fcbStep r b x y).top = y)) ∧
    ((fcbStep r b x y).bottom = b.bottom ∨
      (15 < alphaAt r x y ∧ (fcbStep r b x y).bottom = y)) := by
  unfold fcbStep
  split_ifs <;>
    (refine ⟨?_, ?_, ?_, ?_⟩ <;> dsimp only <;>
      first
      | exact Or.inl rfl
      | exact Or.inr ⟨by assumption, rfl⟩)

theorem fcbFold_left_attain (r : Raster) (L : List (Nat × Nat)) :
    ∀ b, (fcbFold r L b).left = b.left ∨
      ∃ p ∈ L, 15 < alphaAt r p.1 p.2 ∧ (fcbFold r L b).left = p.1 := by
  induction L with
  | nil => exact fun b => Or.inl rfl
  | cons q t ih =>
    intro b
    rcases ih (fcbStep r b q.1 q.2) with h | ⟨p, hp, hcp, hep⟩
    · rcases (fcbStep_field_cases r b q.1 q.2).1 with h2 | ⟨hc, h2⟩
      · exact Or.inl (h.trans h2)
      · exact Or.inr ⟨q, List.mem_cons_self q t, hc, h.trans h2⟩
    · exact Or.inr ⟨p, List.mem_cons_of_mem q hp, hcp, hep⟩

theorem fcbFold_right_attain (r : Raster) (L : List (Nat × Nat)) :
    ∀ b, (fcbFold r L b).right = b.right ∨
      ∃ p ∈ L, 15 < alphaAt r p.1 p.2 ∧ (fcbFold r L b).right = p.1 := by
  induction L with
  | nil => exact fun b => Or.inl rfl
  | cons q t ih =>
    intro b
    rcases ih (fcbStep r b q.1 q.2) with h | ⟨p, hp, hcp, hep⟩
    · rcases (fcbStep_field_cases r b q.1 q.2).2.1 with h2 | ⟨hc, h2⟩
      · exact Or.inl (h.trans h2)
      · exact Or.inr ⟨q, List.mem_cons_self q t, hc, h.trans h2⟩
    · exact Or.inr ⟨p, List.mem_cons_of_mem q hp, hcp, hep⟩

theorem fcbFold_top_attain (r : Raster) (L : List (Nat × Nat)) :
    ∀ b, (fcbFold r L b).top = b.top ∨
      ∃ p ∈ L, 15 < alphaAt r p.1 p.2 ∧ (fcbFold r L b).top = p.2 := by
  induction L with
  | nil => exact fun b => Or.inl rfl
  | cons q t ih =>
    intro b
    rcases ih (fcbStep r b q.1 q.2) with h | ⟨p, hp, hcp, hep⟩
    · rcases (fcbStep_field_cases r b q.1 q.2).2.2.1 with h2 | ⟨hc, h2⟩
      · exact Or.inl (h.trans h2)
      · exact Or.inr ⟨q, List.mem_cons_self q t, hc, h.trans h2⟩
    · exact Or.inr ⟨p, List.mem_cons_of_mem q hp, hcp, hep⟩

theorem fcbFold_bottom_attain (r : Raster) (L : List (Nat × Nat)) :
    ∀ b, (fcbFold r L b).bottom = b.bottom ∨
      ∃ p ∈ L, 15 < alphaAt r p.1 p.2 ∧ (fcbFold r L b).bottom = p.2 := by
  induction L with
  | nil => exact fun b => Or.inl rfl
  | cons q t ih =>
    intro b
    rcases ih (fcbStep r b q.1 q.2) with h | ⟨p, hp, hcp, hep⟩
    · rcases (fcbStep_field_cases r b q.1 q.2).2.2.2 with h2 | ⟨hc, h2⟩
      · exact Or.inl (h.trans h2)
      · exact Or.inr ⟨q, List.mem_cons_self q t, hc, h.trans h2⟩
    · exact Or.inr ⟨p, List.mem_cons_of_mem q hp, hcp, hep⟩

theorem fcbFold_id (r : Raster) (L : List (Nat × Nat))
    (h : ∀ p ∈ L, ¬ 15 < alphaAt r p.1 p.2) : ∀ b, fcbFold r L b = b := by
  induction L with
  | nil => exact fun b => rfl
  | cons q t ih =>
    intro b
    have hq : fcbStep r b q.1 q.2 = b := by
      unfold fcbStep
      rw [if_neg (h q (List.mem_cons_self q t))]
    have ht := ih (fun p hp => h p (List.mem_cons_of_mem q hp))
    show fcbFold r t (fcbStep r b q.1 q.2) = b
    rw [hq]
    exact ht b

theorem fcbScan_no_content (r : Raster)
    (h : ∀ x y, x < r.width → y < r.height → ¬ 15 < alphaAt r x y) :
    fcbScan r = ⟨r.width, r.height, 0, 0⟩ := by
  rw [fcbScan_eq_foldl]
  exact fcbFold_id r (pixList r)
    (fun p hp => h p.1 p.2 ((mem_pixList r p).mp hp).1 ((mem_pixList r p).mp hp).2) _

theorem findContentBounds_fallback (r : Raster) (hw : 0 < r.width)
    (h : ∀ x y, x < r.width → y < r.height → ¬ 15 < alphaAt r x y) :
    findContentBounds r = ⟨0, 0, r.width - 1, r.height - 1⟩ := by
  unfold findContentBounds
  rw [fcbScan_no_content r h]
  exact if_pos (Or.inl hw)

theorem bounds_ext {a b : Bounds} (h1 : a.left = b.left) (h2 : a.top = b.top)
    (h3 : a.right = b.right) (h4 : a.bottom = b.bottom) : a = b := by
  cases a
  cases b
  simp_all

/-- The sub-raster of `r` cropped exactly to the inclusive bounds `b`
(the sub-raster the tightness part of the detector contract re-scans). -/
def cropRaster (r : Raster) (b : Bounds) : Raster :=
  { width := b.right - b.left + 1, height := b.bottom - b.top + 1,
    data := fun p =>
      r.data ((p / (b.right - b.left + 1) + b.top) * r.width +
        (p % (b.right - b.left + 1) + b.left)) }

theorem cropRaster_alphaAt (r : Raster) (b : Bounds) (x y : Nat)
    (hx : x < b.right - b.left + 1) :
    alphaAt (cropRaster r b) x y = alphaAt r (x + b.left) (y + b.top) := by
  unfold alphaAt cropRaster
  dsimp only
  rw [mul_comm y (b.right - b.left + 1)]
  rw [Nat.mul_add_mod, Nat.mod_eq_of_lt hx]
  rw [Nat.mul_add_div (Nat.succ_pos _), Nat.div_eq_of_lt hx, Nat.add_zero]

theorem fcbScan_content_spec (r : Raster) (x0 y0 : Nat) (hx0 : x0 < r.width)
    (hy0 : y0 < r.height) (hc0 : 15 < alphaAt r x0 y0) :
    (∀ x y, x < r.width → y < r.height → 15 < alphaAt r x y →
      (fcbScan r).left ≤ x ∧ x ≤ (fcbScan r).right ∧
        (fcbScan r).top ≤ y ∧ y ≤ (fcbScan r).bottom) ∧
    (∃ y1, y1 < r.height ∧ 15 < alphaAt r (fcbScan r).left y1 ∧
      (fcbScan r).top ≤ y1 ∧ y1 ≤ (fcbScan r).bottom) ∧
    (∃ y2, y2 < r.height ∧ 15 < alphaAt r (fcbScan r).right y2 ∧
      (fcbScan r).top ≤ y2 ∧ y2 ≤ (fcbScan r).bottom) ∧
    (∃ x3, x3 < r.width ∧ 15 < alphaAt r x3 (fcbScan r).top ∧
      (fcbScan r).left ≤ x3 ∧ x3 ≤ (fcbScan r).right) ∧
    (∃ x4, x4 < r.width ∧ 15 < alphaAt r x4 (fcbScan r).bottom ∧
      (fcbScan r).left ≤ x4 ∧ x4 ≤ (fcbScan r).right) ∧
    (fcbScan r).right < r.width ∧ (fcbScan r).bottom < r.height := by
  have hs := fcbScan_eq_foldl r
  have hcov : ∀ x y, x < r.width → y < r.height → 15 < alphaAt r x y →
      (fcbScan r).left ≤ x ∧ x ≤ (fcbScan r).right ∧
        (fcbScan r).top ≤ y ∧ y ≤ (fcbScan r).bottom := by
    intro x y hx hy hc
    rw [hs]
    exact fcbFold_cover r (pixList r) ⟨r.width, r.height, 0, 0⟩ (x, y)
      ((mem_pixList r (x, y)).mpr ⟨hx, hy⟩) hc
  have hcov0 := hcov x0 y0 hx0 hy0 hc0
  refine ⟨hcov, ?_, ?_, ?_, ?_, ?_, ?_⟩
  · rcases fcbFold_left_attain r (pixList r) ⟨r.width, r.height, 0, 0⟩ with h | h
    · rw [← hs] at h
      have h0 : (fcbScan r).left = r.width := h
      exact absurd (h0 ▸ hcov0.1) (by omega)
    · obtain ⟨p, hp, hcp, hep⟩ := h
      rw [← hs] at hep
      have hm := (mem_pixList r p).mp hp
      have hcovp := hcov p.1 p.2 hm.1 hm.2 hcp
      exact ⟨p.2, hm.2, hep ▸ hcp, hcovp.2.2.1, hcovp.2.2.2⟩
  · rcases fcbFold_right_attain r (pixList r) ⟨r.width, r.height, 0, 0⟩ with h | h
    · rw [← hs] at h
      have h0 : (fcbScan r).right = 0 := h
      have hx0r : x0 = (fcbScan r).right := by
        have := hcov0.2.1
        omega
      exact ⟨y0, hy0, hx0r ▸ hc0, hcov0.2.2.1, hcov0.2.2.2⟩
    · obtain ⟨p, hp, hcp, hep⟩ := h
      rw [← hs] at hep
      have hm := (mem_pixList r p).mp hp
      have hcovp := hcov p.1 p.2 hm.1 hm.2 hcp
      exact ⟨p.2, hm.2, hep ▸ hcp, hcovp.2.2.1, hcovp.2.2.2⟩
  · rcases fcbFold_top_attain r (pixList r) ⟨r.width, r.height, 0, 0⟩ with h | h
    · rw [← hs] at h
      have h0 : (fcbScan r).top = r.height := h
      exact absurd (h0 ▸ hcov0.2.2.1) (by omega)
    · obtain ⟨p, hp, hcp, hep⟩ := h
      rw [← hs] at hep
      have hm := (mem_pixList r p).mp hp
      have hcovp := hcov p.1 p.2 hm.1 hm.2 hcp
      exact ⟨p.1, hm.1, hep ▸ hcp, hcovp.1, hcovp.2.1⟩
  · rcases fcbFold_bottom_attain r (pixList r) ⟨r.width, r.height, 0, 0⟩ with h | h
    · rw [← hs] at h
      have h0 : (fcbScan r).bottom = 0 := h
      have hy0b : y0 = (fcbScan r).bottom := by
        have := hcov0.2.2.2
        omega
      exact ⟨x0, hx0, hy0b ▸ hc0, hcov0.1, hcov0.2.1⟩
    · obtain ⟨p, hp, hcp, hep⟩ := h
      rw [← hs] at hep
      have hm := (mem_pixList r p).mp hp
      have hcovp := hcov p.1 p.2 hm.1 hm.2 hcp
      exact ⟨p.1, hm.1, hep ▸ hcp, hcovp.1, hcovp.2.1⟩
  · rcases fcbFold_right_attain r (pixList r) ⟨r.width, r.height, 0, 0⟩ with h | h
    · rw [← hs] at h
      have h0 : (fcbScan r).right = 0 := h
      omega
    · obtain ⟨p, hp, hcp, hep⟩ := h
      rw [← hs] at hep
      have hm := (mem_pixList r p).mp hp
      omega
  · rcases fcbFold_bottom_attain r (pixList r) ⟨r.width, r.height, 0, 0⟩ with h2 | h2
    · rw [← hs] at h2
      have h02 : (fcbScan r).bottom = 0 := h2
      omega
    · obtain ⟨q, hq, hcq, heq⟩ := h2
      rw [← hs] at heq
      have hmq := (mem_pixList r q).mp hq
      omega

/-- Claim C5: if no pixel's alpha exceeds the content-detection threshold
15, `findContentBounds` does not fail: the scan leaves the sentinel state
(`left = width > right = 0`), so the fallback returns full-frame bounds
and the pipeline proceeds treating the whole image as content. -/
theorem findContentBounds_no_content_full_frame (r : Raster)
    (hw : 0 < r.width) (hh : 0 < r.height)
    (h : ∀ x y, x < r.width → y < r.height → alphaAt r x y ≤ 15) :
    findContentBounds r = ⟨0, 0, r.width - 1, r.height - 1⟩ :=
  findContentBounds_fallback r hw (fun x y hx hy => not_lt.mpr (h x y hx hy))

/-- Witness for claim C5: on the fully transparent 3×3 raster the
detector returns the full-frame bounds [0,0]-[2,2]. -/
theorem findContentBounds_no_content_full_frame_witness :
    findContentBounds transparentThree = ⟨0, 0, 2, 2⟩ :=
  findContentBounds_no_content_full_frame transparentThree (by decide) (by decide)
    (fun _ _ _ _ => Nat.zero_le 15)

/-- Claim C4: for every raster (of positive dimensions) the detector
returns bounds satisfying `0 ≤ left ≤ right < width` and
`0 ≤ top ≤ bottom < height`, and re-running the detector on the
sub-raster cropped exactly to those bounds returns bounds touching all
four edges of the crop. -/
theorem findContentBounds_valid_tight (r : Raster) (hw : 0 < r.width)
    (hh : 0 < r.height) :
    ((findContentBounds r).left ≤ (findContentBounds r).right ∧
      (findContentBounds r).right < r.width ∧
      (findContentBounds r).top ≤ (findContentBounds r).bottom ∧
      (findContentBounds r).bottom < r.height) ∧
    findContentBounds (cropRaster r (findContentBounds r)) =
      ⟨0, 0, (cropRaster r (findContentBounds r)).width - 1,
        (cropRaster r (findContentBounds r)).height - 1⟩ := by
  by_cases hex : ∃ x, ∃ y, x < r.width ∧ y < r.height ∧ 15 < alphaAt r x y
  case neg =>
    push_neg at hex
    have hnc : ∀ x y, x < r.width → y < r.height → ¬ 15 < alphaAt r x y :=
      fun x y hx hy => not_lt.mpr (hex x y hx hy)
    have hfb := findContentBounds_fallback r hw hnc
    rw [hfb]
    constructor
    · refine ⟨?_, ?_, ?_, ?_⟩ <;> dsimp only <;> omega
    · have hnc' : ∀ x y,
          x < (cropRaster r ⟨0, 0, r.width - 1, r.height - 1⟩).width →
          y < (cropRaster r ⟨0, 0, r.width - 1, r.height - 1⟩).height →
          ¬ 15 < alphaAt (cropRaster r ⟨0, 0, r.width - 1, r.height - 1⟩) x y := by
        intro x y hx hy
        rw [cropRaster_alphaAt r _ x y hx]
        have hx' : x < r.width := by
          have : x < r.width - 1 - 0 + 1 := hx
          omega
        have hy' : y < r.height := by
          have : y < r.height - 1 - 0 + 1 := hy
          omega
        simpa using hnc x y hx' hy'
      have hcw : (cropRaster r ⟨0, 0, r.width - 1, r.height - 1⟩).width = r.width := by
        show r.width - 1 - 0 + 1 = r.width
        omega
      exact findContentBounds_fallback _ (by rw [hcw]; exact hw) hnc'
  case pos =>
    obtain ⟨x0, y0, hx0, hy0, hc0⟩ := hex
    obtain ⟨hcov, ⟨yL, hyL, hcL, hLt, hLb⟩, ⟨yR, hyR, hcR, hRt, hRb⟩,
      ⟨xT, hxT, hcT, hTl, hTr⟩, ⟨xB, hxB, hcB, hBl, hBr⟩, hrW, hbH⟩ :=
      fcbScan_content_spec r x0 y0 hx0 hy0 hc0
    have hcov0 := hcov x0 y0 hx0 hy0 hc0
    have hnofb : findContentBounds r = fcbScan r := by
      unfold findContentBounds
      rw [if_neg]
      push_neg
      exact ⟨by omega, by omega⟩
    rw [hnofb]
    have hcw : (cropRaster r (fcbScan r)).width =
        (fcbScan r).right - (fcbScan r).left + 1 := rfl
    have hch : (cropRaster r (fcbScan r)).height =
        (fcbScan r).bottom - (fcbScan r).top + 1 := rfl
    refine ⟨⟨by omega, hrW, by omega, hbH⟩, ?_⟩
    have hA : 15 < alphaAt (cropRaster r (fcbScan r)) 0 (yL - (fcbScan r).top) := by
      rw [cropRaster_alphaAt r _ 0 _ (by omega)]
      rw [Nat.zero_add, Nat.sub_add_cancel hLt]
      exact hcL
    have hB : 15 < alphaAt (cropRaster r (fcbScan r))
        ((fcbScan r).right - (fcbScan r).left) (yR - (fcbScan r).top) := by
      rw [cropRaster_alphaAt r _ _ _ (by omega)]
      rw [Nat.sub_add_cancel (by omega), Nat.sub_add_cancel hRt]
      exact hcR
    have hC : 15 < alphaAt (cropRaster r (fcbScan r)) (xT - (fcbScan r).left) 0 := by
      rw [cropRaster_alphaAt r _ _ _ (by omega)]
      rw [Nat.sub_add_cancel hTl, Nat.zero_add]
      exact hcT
    have hD : 15 < alphaAt (cropRaster r (fcbScan r)) (xB - (fcbScan r).left)
        ((fcbScan r).bottom - (fcbScan r).top) := by
      rw [cropRaster_alphaAt r _ _ _ (by omega)]
      rw [Nat.sub_add_cancel hBl, Nat.sub_add_cancel (by omega)]
      exact hcB
    have hcwpos : 0 < (cropRaster r (fcbScan r)).width := Nat.succ_pos _
    have hchpos : 0 < (cropRaster r (fcbScan r)).height := Nat.succ_pos _
    have hyA : yL - (fcbScan r).top < (cropRaster r (fcbScan r)).height := by
      rw [hch]
      omega
    obtain ⟨hcov', -, -, -, -, hrW', hbH'⟩ :=
      fcbScan_content_spec (cropRaster r (fcbScan r)) 0 (yL - (fcbScan r).top)
        hcwpos hyA hA
    have hA' := hcov' 0 (yL - (fcbScan r).top) hcwpos hyA hA
    have hB' := hcov' ((fcbScan r).right - (fcbScan r).left) (yR - (fcbScan r).top)
      (by rw [hcw]; omega) (by rw [hch]; omega) hB
    have hC' := hcov' (xT - (fcbScan r).left) 0 (by rw [hcw]; omega) hchpos hC
    have hD' := hcov' (xB - (fcbScan r).left) ((fcbScan r).bottom - (fcbScan r).top)
      (by rw [hcw]; omega) (by rw [hch]; omega) hD
    have hnofb' : findContentBounds (cropRaster r (fcbScan r)) =
        fcbScan (cropRaster r (fcbScan r)) := by
      unfold findContentBounds
      rw [if_neg]
      push_neg
      constructor
      · have h1 := hA'.1
        have h2 := hB'.2.1
        omega
      · have h1 := hC'.2.2.1
        have h2 := hD'.2.2.2
        omega
    rw [hnofb']
    apply bounds_ext <;> dsimp only
    · have h1 := hA'.1
      omega
    · have h1 := hC'.2.2.1
      omega
    · have h1 := hB'.2.1
      omega
    · have h1 := hD'.2.2.2
      omega

/-- Witness for claim C4: the 2×2 raster whose pixels all have alpha 40
(above the threshold) has valid, tight content bounds. -/
theorem findContentBounds_valid_tight_witness :
    ((findContentBounds contentTwoRaster).left ≤
        (findContentBounds contentTwoRaster).right ∧
      (findContentBounds contentTwoRaster).right < contentTwoRaster.width ∧
      (findContentBounds contentTwoRaster).top ≤
        (findContentBounds contentTwoRaster).bottom ∧
      (findContentBounds contentTwoRaster).bottom < contentTwoRaster.height) ∧
    findContentBounds (cropRaster contentTwoRaster
        (findContentBounds contentTwoRaster)) =
      ⟨0, 0, (cropRaster contentTwoRaster (findContentBounds contentTwoRaster)).width - 1,
        (cropRaster contentTwoRaster (findContentBounds contentTwoRaster)).height - 1⟩ :=
  findContentBounds_valid_tight contentTwoRaster (by decide) (by decide)
